import Mathlib

/-!
Shallow embedding of the zoraxy-blocklist-import-plugin service
(src/main.rs, src/errors.rs, src/zoraxy_types.rs).

Rust strings are modelled as `List Char`.  The `reqwest` HTTP layer is
modelled by its observable behaviour: `send()` returns an error only on a
network-level failure and otherwise hands back the response whatever its
status code; `Response::json::<T>()` either decodes the body or fails,
independently of the status code.  The `tokio::sync::Mutex::try_lock`
guard is modelled as a permit counter with non-blocking try-semantics.
-/

/-- Unicode white-space test, modelling Rust's `char::is_whitespace`
(the Unicode White_Space property), which is what `str::trim` trims. -/
def isWs (c : Char) : Bool :=
  ([0x09, 0x0A, 0x0B, 0x0C, 0x0D, 0x20, 0x85, 0xA0, 0x1680,
    0x2000, 0x2001, 0x2002, 0x2003, 0x2004, 0x2005, 0x2006, 0x2007,
    0x2008, 0x2009, 0x200A, 0x2028, 0x2029, 0x202F, 0x205F, 0x3000] :
      List Nat).contains c.toNat

/-- Rust `str::split(',')`: split at every comma, keeping empty pieces
(so the result is always non-empty and `a,,b` yields an empty middle piece). -/
def splitOnComma : List Char → List (List Char)
  | [] => [[]]
  | c :: rest =>
    if c = ',' then [] :: splitOnComma rest
    else
      match splitOnComma rest with
      | [] => [[c]]
      | piece :: pieces => (c :: piece) :: pieces

/-- Rust `str::trim_start`. -/
def trimStart (s : List Char) : List Char := s.dropWhile isWs

/-- Rust `str::trim_end`. -/
def trimEnd (s : List Char) : List Char := (s.reverse.dropWhile isWs).reverse

/-- Rust `str::trim`. -/
def trim (s : List Char) : List Char := trimEnd (trimStart s)

/-- main.rs lines 137-142: parse `form.blocklist` into the list of IPs
to be imported: split on commas, trim each piece, drop the empty pieces. -/
def parse_ips (raw : List Char) : List (List Char) :=
  ((splitOnComma raw).map trim).filter (fun s => !s.isEmpty)

/-- The two operations ever performed on `AppState.importing_lock`
(`Arc<Mutex<()>>`, main.rs line 50): a non-blocking `try_lock` and the
drop of a held guard. -/
inductive GuardOp
  | tryAcquire
  | release
  deriving DecidableEq

/-- `try_lock` on a `tokio::sync::Mutex` succeeds exactly when no permit is
outstanding; it never waits. -/
def tryAcquireOk (n : Nat) : Bool := n == 0

/-- Effect of one guard operation on the count of outstanding permits:
a successful `try_lock` takes the single permit, a failed one changes
nothing, and dropping a guard returns a permit. -/
def guardStep (n : Nat) : GuardOp → Nat
  | .tryAcquire => if n = 0 then 1 else n
  | .release => n - 1

/-- The permit count reached from the freshly created (free) guard after a
sequence of operations. -/
def guardRun (ops : List GuardOp) : Nat := ops.foldl guardStep 0

/-- `k` simultaneous `try_lock` attempts, serialized in some order with no
release in between; returns each attempt's success flag in order. -/
def attemptAll : Nat → Nat → List Bool
  | 0, _ => []
  | Nat.succ m, n => tryAcquireOk n :: attemptAll m (guardStep n .tryAcquire)

/-- The failure cases of `reqwest::Error` this service can observe, each
carrying its `Display` text. -/
inductive ReqError
  | networkError (msg : List Char)
  | decodeError (msg : List Char)
  deriving DecidableEq

/-- errors.rs lines 3-9: `enum Error`. -/
inductive Error
  | ZoraxyApiError (e : ReqError)
  | ImportInProgress
  deriving DecidableEq

/-- The `Display` text of a `reqwest::Error`, abstracted as the message the
error carries. -/
def displayReqError : ReqError → List Char
  | .networkError m => m
  | .decodeError m => m

/-- The JSON object `{"error": ...}` built by errors.rs `into_response`
(line 27-29); the single field is named `error`. -/
structure ErrorBody where
  error : List Char
  deriving DecidableEq

/-- errors.rs lines 11-33: `into_response`, returning the HTTP status code
and the JSON error body. `ZoraxyApiError` renders through the
`thiserror` attribute as the text Zoraxy API error followed by the inner
error; `ImportInProgress` renders as its fixed message. -/
def intoResponse : Error → Nat × ErrorBody
  | .ZoraxyApiError e => (502, ⟨("Zoraxy API error: ".toList) ++ displayReqError e⟩)
  | .ImportInProgress => (409, ⟨("Import already in progress".toList)⟩)

/-- Outcome of one upstream HTTP round trip as observed through
`reqwest::RequestBuilder::send`: an `Err` arises only from a network-level
failure; any HTTP response, whatever its status code, comes back as `Ok`. -/
inductive HttpOutcome
  | networkError (msg : List Char)
  | response (status : Nat) (body : List Char)
  deriving DecidableEq

/-- What the import loop observes from `client.post(&url)...send().await`
(main.rs lines 182-188): only the `send` result is examined; the status
code and body of a returned response are never inspected. -/
def sendResult : HttpOutcome → Except ReqError Unit
  | .networkError m => .error (.networkError m)
  | .response _ _ => .ok ()

/-- The request built by
`client.post(&url).query(&[("ip", ip)]).bearer_auth(&api_key)`. -/
structure HttpRequest where
  method : List Char
  url : List Char
  query : List (List Char × List Char)
  bearer : List Char
  deriving DecidableEq

/-- main.rs lines 145-148: the add-IP URL, formatted with the Zoraxy port
and the access-rule id. -/
def importUrl (port : Nat) (rule : List Char) : List Char :=
  ("http://localhost:".toList) ++ (Nat.repr port).toList
    ++ ("/plugin/api/blacklist/ip/add?id=".toList) ++ rule

/-- The one upstream request issued for a single IP (main.rs lines 182-187). -/
def mkAddIpRequest (port : Nat) (rule key ip : List Char) : HttpRequest :=
  ⟨("POST".toList), importUrl port rule, [(("ip".toList), ip)], key⟩

/-- The log lines the import task can emit (main.rs lines 169, 175-180,
189-194). -/
inductive LogEntry
  | importingIp (i total : Nat) (rule : List Char)
  | importFailed (rule ip err : List Char)
  | importBusy
  deriving DecidableEq

/-- main.rs lines 174-197: the per-IP loop of the spawned task.  `f j` is
the network outcome of the call issued for the IP at absolute position `j`;
`i` is the position of the current head.  Each iteration logs progress,
issues the request, and on a `send` error logs the failure and continues.
Returns the issued requests in issue order and the log lines in order. -/
def runLoop (port : Nat) (rule key : List Char) (total : Nat)
    (f : Nat → HttpOutcome) : Nat → List (List Char) → List HttpRequest × List LogEntry
  | _, [] => ([], [])
  | i, ip :: rest =>
    let r := runLoop port rule key total f (i + 1) rest
    match sendResult (f i) with
    | .error e =>
      (mkAddIpRequest port rule key ip :: r.1,
        LogEntry.importingIp (i + 1) total rule
          :: LogEntry.importFailed rule ip (displayReqError e) :: r.2)
    | .ok _ =>
      (mkAddIpRequest port rule key ip :: r.1,
        LogEntry.importingIp (i + 1) total rule :: r.2)

/-- main.rs lines 164-199: body of the spawned import task.  `held` is the
guard state when the task runs its own `try_lock`: if the guard is held the
task logs a warning and returns at once; otherwise it holds the permit for
the whole loop and drops it at the end.  Returns the guard state after the
task finishes, the requests issued, and the log lines. -/
def runJob (held : Bool) (port : Nat) (rule key : List Char)
    (ips : List (List Char)) (f : Nat → HttpOutcome) :
    Bool × List HttpRequest × List LogEntry :=
  if held then (true, [], [LogEntry.importBusy])
  else
    let r := runLoop port rule key ips.length f 0 ips
    (false, r.1, r.2)

/-- main.rs lines 120-127: the query form of `POST /api/import`. -/
structure ImportForm where
  access_rule_id : List Char
  blocklist : List Char
  deriving DecidableEq

/-- The data moved into the spawned task (main.rs line 164): the port and
credential from `AppState` plus the rule id and parsed IP list. -/
structure JobSpec where
  port : Nat
  rule : List Char
  key : List Char
  ips : List (List Char)
  deriving DecidableEq

/-- Result of the import handler: either a synchronous error response or an
accepted body together with the detached job it spawns. -/
inductive HandlerOutput
  | rejected (e : Error)
  | accepted (body : List Char) (job : JobSpec)
  deriving DecidableEq

/-- main.rs lines 152-156: the success response string, built from the
count of parsed IPs and the access-rule id. -/
def startedResponse (n : Nat) (rule : List Char) : List Char :=
  ("Started import of ".toList) ++ (Nat.repr n).toList
    ++ (" IPs to Access Rule ID: ".toList) ++ rule
    ++ (", check logs for progress.".toList)

/-- main.rs lines 130-201: `handle_import_post`.  `held` is the guard state
at the dispatcher's preliminary `try_lock` (line 159); when that succeeds
the temporary permit is dropped immediately, so the guard state is left
unchanged and only the spawned task's own `try_lock` guards the loop. -/
def handle_import_post (held : Bool) (port : Nat) (key : List Char)
    (form : ImportForm) : HandlerOutput :=
  let ips := parse_ips form.blocklist
  let response := startedResponse ips.length form.access_rule_id
  if held then .rejected .ImportInProgress
  else .accepted response ⟨port, form.access_rule_id, key, ips⟩

/-- zoraxy_types.rs: `AccessRule`. -/
structure AccessRule where
  id : List Char
  name : List Char
  desc : List Char
  blacklist_enabled : Bool
  whitelist_enabled : Bool
  deriving DecidableEq

/-- Upstream outcome for the listing endpoint.  `decoded` abstracts
`response.json::<Vec<AccessRule>>()` on the body: `some rules` when the
body decodes as an access-rule array, `none` when it is malformed for that
type; `msg` is the error text in the malformed case. -/
inductive ListUpstream
  | networkError (msg : List Char)
  | response (status : Nat) (decoded : Option (List AccessRule)) (msg : List Char)
  deriving DecidableEq

/-- main.rs lines 209-224: `handle_list_access_rules`.  `send().await?`
propagates only network errors and `response.json().await?` propagates
decode failures; the status code of the upstream response is never
checked. -/
def handle_list_access_rules : ListUpstream → Except Error (List AccessRule)
  | .networkError m => .error (.ZoraxyApiError (.networkError m))
  | .response _ none m => .error (.ZoraxyApiError (.decodeError m))
  | .response _ (some rules) _ => .ok rules


theorem dropWhile_idem {α : Type} (p : α → Bool) (l : List α) :
    List.dropWhile p (List.dropWhile p l) = List.dropWhile p l := by
  induction l with
  | nil => rfl
  | cons a t ih =>
    by_cases h : p a = true
    · simp [List.dropWhile_cons, h, ih]
    · simp [List.dropWhile_cons, h]

theorem dropWhile_head_false {α : Type} (p : α → Bool) (l : List α) (a : α) (t : List α)
    (h : List.dropWhile p l = a :: t) : p a = false := by
  induction l with
  | nil => exact absurd h (by simp [List.dropWhile])
  | cons b r ih =>
    rw [List.dropWhile_cons] at h
    by_cases hb : p b = true
    · exact ih (by rwa [if_pos hb] at h)
    · rw [if_neg hb] at h
      cases h
      simpa using hb

theorem dropWhile_eq_self_of_head {α : Type} (p : α → Bool) (l : List α)
    (h : ∀ a t, l = a :: t → p a = false) : List.dropWhile p l = l := by
  cases l with
  | nil => rfl
  | cons a t => rw [List.dropWhile_cons, if_neg (by simp [h a t rfl])]

theorem dropWhile_getLast? {α : Type} (p : α → Bool) (l : List α)
    (h : List.dropWhile p l ≠ []) :
    (List.dropWhile p l).getLast? = l.getLast? := by
  induction l with
  | nil => exact absurd rfl h
  | cons a t ih =>
    rw [List.dropWhile_cons] at h ⊢
    by_cases ha : p a = true
    · rw [if_pos ha] at h ⊢
      rw [ih h]
      cases t with
      | nil => exact absurd rfl h
      | cons b r => rw [List.getLast?_cons_cons]
    · rw [if_neg ha]

theorem trimEnd_trim (s : List Char) : trimEnd (trim s) = trim s := by
  show trimEnd (trimEnd (trimStart s)) = trimEnd (trimStart s)
  unfold trimEnd
  rw [List.reverse_reverse, dropWhile_idem]

theorem trimStart_trim (s : List Char) : trimStart (trim s) = trim s := by
  apply dropWhile_eq_self_of_head
  intro a t h
  have hD : (trimStart s).reverse.dropWhile isWs ≠ [] := by
    intro hnil
    rw [trim, trimEnd, hnil] at h
    exact List.cons_ne_nil a t h.symm
  have h1 : ((trimStart s).reverse.dropWhile isWs).reverse.head? = some a := by
    rw [trim, trimEnd] at h
    rw [h]
    rfl
  rw [List.head?_reverse, dropWhile_getLast? _ _ hD, List.getLast?_reverse] at h1
  cases hts : trimStart s with
  | nil => rw [hts] at h1; exact absurd h1 (by simp)
  | cons b u =>
    rw [hts] at h1
    have hb : b = a := by simpa using h1
    subst hb
    exact dropWhile_head_false isWs s b u hts

theorem trim_idem (s : List Char) : trim (trim s) = trim s := by
  show trimEnd (trimStart (trim s)) = trim s
  rw [trimStart_trim, trimEnd_trim]

theorem guardStep_le_one (n : Nat) (h : n ≤ 1) (op : GuardOp) : guardStep n op ≤ 1 := by
  cases op with
  | tryAcquire => simp only [guardStep]; split <;> omega
  | release => simp only [guardStep]; omega

theorem guardRun_le_one_aux (ops : List GuardOp) (n : Nat) (h : n ≤ 1) :
    ops.foldl guardStep n ≤ 1 := by
  induction ops generalizing n with
  | nil => simpa using h
  | cons op rest ih =>
    rw [List.foldl_cons]
    exact ih (guardStep n op) (guardStep_le_one n h op)

theorem attemptAll_busy (m : Nat) : attemptAll m 1 = List.replicate m false := by
  induction m with
  | zero => rfl
  | succ k ih =>
    show tryAcquireOk 1 :: attemptAll k (guardStep 1 .tryAcquire) = _
    rw [show guardStep 1 GuardOp.tryAcquire = 1 from rfl, ih]
    rfl

theorem runLoop_calls (port : Nat) (rule key : List Char) (total : Nat)
    (f : Nat → HttpOutcome) (i : Nat) (ips : List (List Char)) :
    (runLoop port rule key total f i ips).1 = ips.map (mkAddIpRequest port rule key) := by
  induction ips generalizing i with
  | nil => rfl
  | cons ip rest ih =>
    simp only [runLoop, List.map_cons]
    cases hfi : sendResult (f i) <;> simp [hfi, ih]

theorem runLoop_fail_logged (port : Nat) (rule key : List Char) (total : Nat)
    (f : Nat → HttpOutcome) (ips : List (List Char)) :
    ∀ (i k : Nat) (ip : List Char) (err : ReqError),
      ips[k]? = some ip →
      sendResult (f (i + k)) = Except.error err →
      LogEntry.importFailed rule ip (displayReqError err)
        ∈ (runLoop port rule key total f i ips).2 := by
  induction ips with
  | nil => intro i k ip err hip hf; exact absurd hip (by simp)
  | cons a rest ih =>
    intro i k ip err hip hf
    cases k with
    | zero =>
      have ha : a = ip := by simpa using hip
      subst ha
      rw [Nat.add_zero] at hf
      simp only [runLoop]
      rw [hf]
      exact List.mem_cons_of_mem _ (List.mem_cons_self _ _)
    | succ m =>
      have hrest : rest[m]? = some ip := by simpa using hip
      have hf2 : sendResult (f ((i + 1) + m)) = Except.error err := by
        rw [show (i + 1) + m = i + (m + 1) from by omega]
        exact hf
      have hmem := ih (i + 1) m ip err hrest hf2
      simp only [runLoop]
      cases hfi : sendResult (f i) with
      | error e => exact List.mem_cons_of_mem _ (List.mem_cons_of_mem _ hmem)
      | ok u => exact List.mem_cons_of_mem _ hmem


/-- C1: the Import Guard holds exactly one binary permit: every state
reachable from the free guard by try-acquire and release steps has at most
one permit outstanding; a try-acquire succeeds exactly when no permit is
held; and of N simultaneous acquisition attempts on the free guard exactly
the first serialized one succeeds and the other N-1 observe Busy. -/
theorem guard_single_permit :
    (∀ ops : List GuardOp, guardRun ops ≤ 1) ∧
    (∀ n : Nat, tryAcquireOk n = true ↔ n = 0) ∧
    (∀ N : Nat, 1 ≤ N → attemptAll N 0 = true :: List.replicate (N - 1) false) := by
  refine ⟨fun ops => guardRun_le_one_aux ops 0 (by omega), fun n => ?_, fun N hN => ?_⟩
  · simp [tryAcquireOk]
  · cases N with
    | zero => omega
    | succ m =>
      show tryAcquireOk 0 :: attemptAll m (guardStep 0 .tryAcquire) = _
      rw [show guardStep 0 GuardOp.tryAcquire = 1 from rfl, attemptAll_busy]
      rfl

/-- Witness for C1 at N = 3 simultaneous attempts. -/
theorem guard_single_permit_witness :
    attemptAll 3 0 = true :: List.replicate 2 false :=
  guard_single_permit.2.2 3 (by omega)

/-- C2: an import request arriving while the guard is held is answered with
409 Conflict and the JSON body with error field Import already in progress,
and no job is spawned for it. -/
theorem busy_request_rejected :
    (∀ (port : Nat) (key : List Char) (form : ImportForm),
      handle_import_post true port key form = HandlerOutput.rejected Error.ImportInProgress ∧
      ∀ (body : List Char) (job : JobSpec),
        handle_import_post true port key form ≠ HandlerOutput.accepted body job) ∧
    intoResponse Error.ImportInProgress = (409, ⟨("Import already in progress".toList)⟩) := by
  refine ⟨fun port key form => ⟨rfl, ?_⟩, rfl⟩
  intro body job h
  have h2 : HandlerOutput.rejected Error.ImportInProgress = HandlerOutput.accepted body job := h
  exact HandlerOutput.noConfusion h2

/-- Witness for C2 at a concrete request. -/
theorem busy_request_rejected_witness :
    handle_import_post true 8080 ("k".toList) ⟨("r".toList), ("1.2.3.4".toList)⟩
      = HandlerOutput.rejected Error.ImportInProgress :=
  (busy_request_rejected.1 8080 ("k".toList) ⟨("r".toList), ("1.2.3.4".toList)⟩).1

/-- C3: an admitted import job (guard free at its own try-acquire) ends
with the guard free again, whatever the per-IP outcomes were, and a
subsequent import request is then accepted. -/
theorem job_releases_guard :
    ∀ (port : Nat) (rule key : List Char) (ips : List (List Char)) (f : Nat → HttpOutcome),
      (runJob false port rule key ips f).1 = false ∧
      tryAcquireOk 0 = true ∧
      ∀ (port2 : Nat) (key2 : List Char) (form : ImportForm),
        handle_import_post (runJob false port rule key ips f).1 port2 key2 form
          = HandlerOutput.accepted
              (startedResponse (parse_ips form.blocklist).length form.access_rule_id)
              ⟨port2, form.access_rule_id, key2, parse_ips form.blocklist⟩ :=
  fun _ _ _ _ _ => ⟨rfl, rfl, fun _ _ _ => rfl⟩

/-- C4: the parsed IP list is the blocklist split on commas, trimmed, with
empty tokens dropped; every element is non-empty and free of leading or
trailing whitespace; order and duplicates are preserved by that map-filter;
and the documented example parses as stated. -/
theorem parse_ips_spec :
    (∀ raw : List Char,
      parse_ips raw = ((splitOnComma raw).map trim).filter (fun s => !s.isEmpty)) ∧
    (∀ (raw s : List Char), s ∈ parse_ips raw → s ≠ [] ∧ trim s = s) ∧
    parse_ips ("1.1.1.1, 2.2.2.2 ,, 3.3.3.3".toList)
      = [("1.1.1.1".toList), ("2.2.2.2".toList), ("3.3.3.3".toList)] := by
  refine ⟨fun raw => rfl, ?_, by decide⟩
  intro raw s hs
  rw [parse_ips] at hs
  obtain ⟨hmem, hne⟩ := List.mem_filter.mp hs
  obtain ⟨t, _, ht⟩ := List.mem_map.mp hmem
  refine ⟨?_, ?_⟩
  · intro hnil
    rw [hnil] at hne
    simp at hne
  · rw [← ht]
    exact trim_idem t

/-- Witness for C4 at a concrete member of the parsed example list. -/
theorem parse_ips_spec_witness :
    ("1.1.1.1".toList) ≠ [] ∧ trim ("1.1.1.1".toList) = ("1.1.1.1".toList) :=
  parse_ips_spec.2.1 ("1.1.1.1, 2.2.2.2 ,, 3.3.3.3".toList) ("1.1.1.1".toList) (by decide)

/-- C5: an admitted job issues exactly one upstream add-IP request per list
element, in list order (the sequential loop issues them one after another);
the i-th request is for the i-th IP; and each request is a POST to the
add-IP endpoint with query id the access-rule id, query ip the element, and
bearer auth with the API key. -/
theorem job_calls_in_order :
    ∀ (port : Nat) (rule key : List Char) (ips : List (List Char)) (f : Nat → HttpOutcome),
      (runJob false port rule key ips f).2.1 = ips.map (mkAddIpRequest port rule key) ∧
      (runJob false port rule key ips f).2.1.length = ips.length ∧
      (∀ i : Nat, (runJob false port rule key ips f).2.1[i]?
        = Option.map (mkAddIpRequest port rule key) ips[i]?) ∧
      ∀ ip : List Char, mkAddIpRequest port rule key ip =
        { method := ("POST".toList),
          url := ("http://localhost:".toList) ++ (Nat.repr port).toList
            ++ ("/plugin/api/blacklist/ip/add?id=".toList) ++ rule,
          query := [(("ip".toList), ip)],
          bearer := key } := by
  intro port rule key ips f
  have hcalls : (runJob false port rule key ips f).2.1
      = ips.map (mkAddIpRequest port rule key) :=
    runLoop_calls port rule key ips.length f 0 ips
  refine ⟨hcalls, by rw [hcalls, List.length_map], ?_, fun ip => rfl⟩
  intro i
  rw [hcalls, List.getElem?_map]

/-- C6: if the submission for the IP at position k fails, the job logs the
access-rule id, the IP, and the upstream error, yet still issues the
request for every element of the list; and the HTTP caller of an accepted
request only ever sees the started response, never a per-IP failure. -/
theorem job_continues_past_failure :
    ∀ (port : Nat) (rule key : List Char) (ips : List (List Char)) (f : Nat → HttpOutcome)
      (k : Nat) (ip : List Char) (err : ReqError),
      ips[k]? = some ip →
      sendResult (f k) = Except.error err →
      LogEntry.importFailed rule ip (displayReqError err)
          ∈ (runJob false port rule key ips f).2.2 ∧
      (runJob false port rule key ips f).2.1 = ips.map (mkAddIpRequest port rule key) ∧
      (runJob false port rule key ips f).2.1.length = ips.length ∧
      ∀ form : ImportForm,
        handle_import_post false port key form
          = HandlerOutput.accepted
              (startedResponse (parse_ips form.blocklist).length form.access_rule_id)
              ⟨port, form.access_rule_id, key, parse_ips form.blocklist⟩ := by
  intro port rule key ips f k ip err hip hf
  have hcalls : (runJob false port rule key ips f).2.1
      = ips.map (mkAddIpRequest port rule key) :=
    runLoop_calls port rule key ips.length f 0 ips
  refine ⟨?_, hcalls, by rw [hcalls, List.length_map], fun form => rfl⟩
  exact runLoop_fail_logged port rule key ips.length f ips 0 k ip err hip
    (by rwa [Nat.zero_add])

/-- Witness for C6: with both calls failing at the network level, the
failure of the first IP is logged. -/
theorem job_continues_past_failure_witness :
    LogEntry.importFailed ("r".toList) ("1.2.3.4".toList) ("boom".toList)
      ∈ (runJob false 8080 ("r".toList) ("k".toList)
          [("1.2.3.4".toList), ("5.6.7.8".toList)]
          (fun _ => HttpOutcome.networkError ("boom".toList))).2.2 :=
  (job_continues_past_failure 8080 ("r".toList) ("k".toList)
    [("1.2.3.4".toList), ("5.6.7.8".toList)]
    (fun _ => HttpOutcome.networkError ("boom".toList)) 0 ("1.2.3.4".toList)
    (ReqError.networkError ("boom".toList)) (by decide) rfl).1

/-- C7: the accepted response body is exactly the started-import string,
with N the count of parsed (trimmed, non-empty) IPs and not the count of
raw comma-separated tokens; checked on the documented example and on an
input where the two counts differ (2 parsed IPs out of 4 raw tokens). -/
theorem accepted_response_body :
    (∀ (port : Nat) (key : List Char) (form : ImportForm),
      handle_import_post false port key form
        = HandlerOutput.accepted
            (startedResponse (parse_ips form.blocklist).length form.access_rule_id)
            ⟨port, form.access_rule_id, key, parse_ips form.blocklist⟩) ∧
    startedResponse 2 ("abc".toList)
      = ("Started import of 2 IPs to Access Rule ID: abc, check logs for progress.".toList) ∧
    (parse_ips ("10.0.0.1,10.0.0.2".toList)).length = 2 ∧
    (parse_ips ("10.0.0.1, ,10.0.0.2,".toList)).length = 2 ∧
    (splitOnComma ("10.0.0.1, ,10.0.0.2,".toList)).length = 4 :=
  ⟨fun port key form => rfl, by decide, by decide, by decide, by decide⟩

/-- C8 counterexample: a 500 upstream response is observed as success by
the import loop, because the send result is the only thing inspected and a
non-2xx response still comes back as Ok from send. -/
theorem add_ip_non2xx_success_cex :
    sendResult (HttpOutcome.response 500 ("Internal Server Error".toList)) = Except.ok () ∧
    ¬ ∃ e : ReqError,
      sendResult (HttpOutcome.response 500 ("Internal Server Error".toList))
        = Except.error e := by
  refine ⟨rfl, ?_⟩
  rintro ⟨e, h⟩
  have h2 : Except.ok () = Except.error e := h
  exact Except.noConfusion h2

/-- C8 amended: a per-IP submission yields a typed failure exactly when a
network error occurs contacting the upstream; the status code and body of
a returned response are never inspected, so any HTTP response, non-2xx
included, is treated as success. -/
theorem add_ip_failure_iff_network :
    ∀ outcome : HttpOutcome,
      ((∃ e, sendResult outcome = Except.error e) ↔
        ∃ m, outcome = HttpOutcome.networkError m) ∧
      ∀ (status : Nat) (body : List Char),
        sendResult (HttpOutcome.response status body) = Except.ok () := by
  intro outcome
  refine ⟨⟨?_, ?_⟩, fun status body => rfl⟩
  · rintro ⟨e, h⟩
    cases outcome with
    | networkError m => exact ⟨m, rfl⟩
    | response s b =>
      have h2 : Except.ok () = Except.error e := h
      exact Except.noConfusion h2
  · rintro ⟨m, rfl⟩
    exact ⟨ReqError.networkError m, rfl⟩

/-- C9 counterexample: a 404 upstream response whose body still decodes as
an access-rule array is returned by the listing handler as a success, not
as a 502 error; the status code is never checked. -/
theorem list_rules_status_ignored_cex :
    handle_list_access_rules (ListUpstream.response 404 (some []) []) = Except.ok [] ∧
    ¬ ∃ e : Error,
      handle_list_access_rules (ListUpstream.response 404 (some []) [])
        = Except.error e := by
  refine ⟨rfl, ?_⟩
  rintro ⟨e, h⟩
  have h2 : Except.ok ([] : List AccessRule) = Except.error e := h
  exact Except.noConfusion h2

/-- C9 amended: the listing handler fails exactly when the upstream call
fails at the network level or the body fails to decode as an access-rule
array (which covers the typical non-2xx error body); every such failure is
surfaced as a 502 response whose JSON body has a non-empty error field. -/
theorem list_rules_error_cases :
    ∀ u : ListUpstream,
      ((∃ e, handle_list_access_rules u = Except.error e) ↔
        ((∃ m, u = ListUpstream.networkError m) ∨
          ∃ s m, u = ListUpstream.response s none m)) ∧
      ∀ e : Error, handle_list_access_rules u = Except.error e →
        (intoResponse e).1 = 502 ∧ (intoResponse e).2.error ≠ [] := by
  intro u
  cases u with
  | networkError m =>
    refine ⟨⟨fun _ => Or.inl ⟨m, rfl⟩, fun _ => ⟨_, rfl⟩⟩, ?_⟩
    intro e h
    have h2 : Except.error (Error.ZoraxyApiError (ReqError.networkError m))
        = Except.error e := h
    have he := Except.error.inj h2
    subst he
    refine ⟨rfl, ?_⟩
    intro hc
    have hz := (List.append_eq_nil.mp hc).1
    exact absurd hz (by decide)
  | response s decoded m =>
    cases decoded with
    | none =>
      refine ⟨⟨fun _ => Or.inr ⟨s, m, rfl⟩, fun _ => ⟨_, rfl⟩⟩, ?_⟩
      intro e h
      have h2 : Except.error (Error.ZoraxyApiError (ReqError.decodeError m))
          = Except.error e := h
      have he := Except.error.inj h2
      subst he
      refine ⟨rfl, ?_⟩
      intro hc
      have hz := (List.append_eq_nil.mp hc).1
      exact absurd hz (by decide)
    | some rules =>
      refine ⟨⟨?_, ?_⟩, ?_⟩
      · rintro ⟨e, h⟩
        have h2 : Except.ok rules = Except.error e := h
        exact Except.noConfusion h2
      · rintro (⟨m2, h⟩ | ⟨s2, m2, h⟩) <;> simp at h
      · intro e h
        have h2 : Except.ok rules = Except.error e := h
        exact Except.noConfusion h2

/-- Witness for C9 amended at a concrete network failure. -/
theorem list_rules_error_cases_witness :
    (intoResponse (Error.ZoraxyApiError
      (ReqError.networkError ("connection refused".toList)))).1 = 502 ∧
    (intoResponse (Error.ZoraxyApiError
      (ReqError.networkError ("connection refused".toList)))).2.error ≠ [] :=
  (list_rules_error_cases
    (ListUpstream.networkError ("connection refused".toList))).2
    (Error.ZoraxyApiError (ReqError.networkError ("connection refused".toList))) rfl

/-- C10: a request accepted by the dispatcher gets the started response; if
the detached job then finds the guard busy at its own try-acquire, it logs
a warning and returns with zero upstream requests, leaving the guard and
the already-sent accepted response untouched. -/
theorem detached_job_busy_noop :
    (∀ (port : Nat) (rule key : List Char) (ips : List (List Char)) (f : Nat → HttpOutcome),
      runJob true port rule key ips f = (true, [], [LogEntry.importBusy])) ∧
    (∀ (port : Nat) (key : List Char) (form : ImportForm),
      handle_import_post false port key form
        = HandlerOutput.accepted
            (startedResponse (parse_ips form.blocklist).length form.access_rule_id)
            ⟨port, form.access_rule_id, key, parse_ips form.blocklist⟩) :=
  ⟨fun _ _ _ _ _ => rfl, fun _ _ _ => rfl⟩
